import Mathlib

/-!
Verification development for the storage layer of the
`playmcp-kakaotalk-emoticon` repository.

The embedding covers `src/redis_client.py` (the `BaseStorage` JSON layer,
`MemoryStorage`, `RedisStorage` retry machinery) and `src/task_storage.py`
(`GenerationTask`, `TaskStorage`).

Modelling conventions:
* Python `dict`s whose keys are compared by `==` are modelled as association
  lists with no duplicate keys; insertion preserves position of an existing
  key and appends fresh keys, mirroring CPython insertion-order semantics.
* Wall-clock instants (`datetime.now()`) are modelled as natural numbers and
  passed explicitly to every operation that reads the clock; a `ttl` of `n`
  seconds stored at instant `now` yields the absolute expiry `now + n`,
  exactly as `datetime.now() + timedelta(seconds=ttl)` does.
* Python truthiness of the optional `ttl` argument (`if ttl:`) is modelled by
  `pyTruthy`: `None` and `0` are falsy, everything else truthy.
* `async` plays no semantic role here (every operation holds the single lock
  for its whole body), so operations are plain state-passing functions.
-/

set_option autoImplicit false
set_option linter.unusedSectionVars false

namespace KV

variable {K : Type} {α : Type} {β : Type} [DecidableEq K]

/-- Keys of an association list, in order (models `dict.keys()`). -/
def keysOf (l : List (K × α)) : List K := l.map Prod.fst

/-- First value stored under key `k` (models `dict[k]` / `dict.get(k)`). -/
def lookupKey : List (K × α) → K → Option α
  | [], _ => none
  | (a, b) :: t, k => if a = k then some b else lookupKey t k

/-- Remove every entry whose key is `k` (models `dict.pop(k, None)`;
on a duplicate-free list this removes at most one entry). -/
def removeKey (l : List (K × α)) (k : K) : List (K × α) :=
  l.filter (fun p => decide (p.1 ≠ k))

/-- Remove every entry whose key occurs in `ks` (models a loop of pops). -/
def removeKeys (l : List (K × α)) (ks : List K) : List (K × α) :=
  l.filter (fun p => decide (p.1 ∉ ks))

/-- `dict[k] = v`: overwrite in place if the key is present, else append. -/
def insertKey (l : List (K × α)) (k : K) (v : α) : List (K × α) :=
  if k ∈ keysOf l then l.map (fun p => if p.1 = k then (k, v) else p)
  else l ++ [(k, v)]

end KV

/-! ## MemoryStorage (`src/redis_client.py`, class `MemoryStorage`) -/

namespace MemoryStorage

open KV

variable {K : Type} {V : Type} [DecidableEq K]

/-- `MemoryStorage.MAX_ITEMS` (`redis_client.py` line 101). -/
def MAX_ITEMS : Nat := 1000

/-- The instance state: `self._data` and `self._expiry`
(`redis_client.py` lines 104-105).  Values are kept abstract in `V`
(the source stores opaque `bytes`). -/
structure State (K : Type) (V : Type) where
  data : List (K × V)
  expiry : List (K × Nat)
deriving DecidableEq, Repr

/-- The freshly constructed store: both dicts empty (`__init__`). -/
def emptyState (K V : Type) : State K V := ⟨[], []⟩

/-- Python truthiness of the optional integer `ttl` argument:
`if ttl:` is `False` exactly for `None` and `0`. -/
def pyTruthy : Option Nat → Bool
  | none => false
  | some n => decide (n ≠ 0)

/-- The keys collected by `MemoryStorage._cleanup_expired` (lines 110-114):
every key whose expiry instant is strictly in the past. -/
def expiredKeys (s : State K V) (now : Nat) : List K :=
  keysOf (s.expiry.filter (fun p => decide (p.2 < now)))

/-- `MemoryStorage._cleanup_expired` (lines 108-117): pop every expired key
from both dicts. -/
def cleanupExpired (s : State K V) (now : Nat) : State K V :=
  ⟨removeKeys s.data (expiredKeys s now), removeKeys s.expiry (expiredKeys s now)⟩

/-- The eviction victims chosen by `MemoryStorage._enforce_max_items`
(lines 124-132): the expiry entries sorted ascending by expiry instant,
truncated to `len(self._data) - MAX_ITEMS // 2` entries.  Entries without
an expiry are never candidates. -/
def enforceVictims (s : State K V) : List K :=
  keysOf ((s.expiry.mergeSort (fun a b => decide (a.2 ≤ b.2))).take
    (s.data.length - MAX_ITEMS / 2))

/-- `MemoryStorage._enforce_max_items` (lines 119-134): if the data dict
holds more than `MAX_ITEMS` entries, pop the victims from both dicts. -/
def enforceMaxItems (s : State K V) : State K V :=
  if s.data.length ≤ MAX_ITEMS then s
  else ⟨removeKeys s.data (enforceVictims s), removeKeys s.expiry (enforceVictims s)⟩

/-- The expiry-dict update performed by `MemoryStorage.set` (lines 152-155):
a truthy ttl records `now + ttl`, otherwise any prior expiry of the key is
deleted. -/
def setExpiry (e : List (K × Nat)) (k : K) (ttl : Option Nat) (now : Nat) :
    List (K × Nat) :=
  if pyTruthy ttl then insertKey e k (now + ttl.getD 0)
  else if k ∈ keysOf e then removeKey e k
  else e

/-- `MemoryStorage.set` (lines 146-156): purge expired entries, enforce the
capacity cap, then store the value (and expiry, if a truthy ttl was given).
The source returns `True` unconditionally; the interesting effect is the
state change. -/
def set (s : State K V) (k : K) (v : V) (ttl : Option Nat) (now : Nat) :
    State K V :=
  ⟨insertKey (enforceMaxItems (cleanupExpired s now)).data k v,
   setExpiry (enforceMaxItems (cleanupExpired s now)).expiry k ttl now⟩

/-- `MemoryStorage.get` (lines 136-144): on an expired key pop it from both
dicts and return `None`; otherwise return `self._data.get(key)`. -/
def get (s : State K V) (k : K) (now : Nat) : Option V × State K V :=
  match lookupKey s.expiry k with
  | some e =>
    if e < now then (none, ⟨removeKey s.data k, removeKey s.expiry k⟩)
    else (lookupKey s.data k, s)
  | none => (lookupKey s.data k, s)

/-- `MemoryStorage.exists` (lines 164-170). -/
def existsKey (s : State K V) (k : K) (now : Nat) : Bool × State K V :=
  match lookupKey s.expiry k with
  | some e =>
    if e < now then (false, ⟨removeKey s.data k, removeKey s.expiry k⟩)
    else (decide (k ∈ keysOf s.data), s)
  | none => (decide (k ∈ keysOf s.data), s)

/-- `MemoryStorage.delete` (lines 158-162): pop from both dicts,
return `True`. -/
def delete (s : State K V) (k : K) : Bool × State K V :=
  (true, ⟨removeKey s.data k, removeKey s.expiry k⟩)

/-- `MemoryStorage.keys` (lines 172-186), specialised to string keys as in
the source: purge expired entries, then filter the data keys by the
pattern (`*`, trailing-`*` prefix form, or exact match). -/
def keysOp (s : State String V) (pattern : String) (now : Nat) :
    List String × State String V :=
  let s₁ := cleanupExpired s now
  if pattern = "*" then (keysOf s₁.data, s₁)
  else if pattern.endsWith "*" then
    let pfx := pattern.dropRight 1
    ((keysOf s₁.data).filter (fun k => k.startsWith pfx), s₁)
  else ((keysOf s₁.data).filter (fun k => decide (k = pattern)), s₁)

/-- One observable operation on a `MemoryStorage` instance, with the clock
reading `datetime.now()` would return made explicit.  `scanOp` is the state
effect of `keys` (whose pattern filtering does not change the state). -/
inductive MOp (K : Type) (V : Type) where
  | getOp (k : K) (now : Nat)
  | setOp (k : K) (v : V) (ttl : Option Nat) (now : Nat)
  | delOp (k : K)
  | existsOp (k : K) (now : Nat)
  | scanOp (now : Nat)

/-- State transition of a single operation. -/
def stepOp (s : State K V) : MOp K V → State K V
  | .getOp k now => (get s k now).2
  | .setOp k v ttl now => set s k v ttl now
  | .delOp k => (delete s k).2
  | .existsOp k now => (existsKey s k now).2
  | .scanOp now => cleanupExpired s now

/-- Run a sequence of operations from the freshly constructed store. -/
def runOps (ops : List (MOp K V)) : State K V :=
  ops.foldl stepOp (emptyState K V)

/-- States reachable by the source code: both dicts are genuine dicts
(duplicate-free keys), every data entry has a matching expiry entry and
vice versa (true whenever every `set` supplied a truthy ttl), and the data
dict holds at most `MAX_ITEMS + 1` entries. -/
def WF (s : State K V) : Prop :=
  (keysOf s.data).Nodup ∧ (keysOf s.expiry).Nodup ∧
    (∀ k, k ∈ keysOf s.data ↔ k ∈ keysOf s.expiry) ∧
    s.data.length ≤ MAX_ITEMS + 1

/-- The side condition the amended capacity claim needs: every `set` in the
history supplied a truthy (non-`None`, nonzero) ttl. -/
def setTtlOk : MOp K V → Prop
  | .setOp _ _ ttl _ => pyTruthy ttl = true
  | _ => True

/-- The operation sequence that drives `MemoryStorage` past its cap: `n`
distinct keys `0, 1, …, n-1`, each stored with `ttl = 1` at instant `0`. -/
def capOps (n : Nat) : List (MOp Nat Nat) :=
  (List.range n).map (fun i => MOp.setOp i 0 (some 1) 0)

end MemoryStorage
/-! ## BaseStorage.get_json (`src/redis_client.py` lines 71-76) -/

namespace BaseStorage

/-- Is `b` a UTF-8 continuation byte (`0x80 ≤ b < 0xC0`)? -/
def isCont (b : Nat) : Bool := decide (0x80 ≤ b ∧ b < 0xC0)

/-- Strict UTF-8 decoding of a byte sequence into code points, as performed
by Python's `bytes.decode('utf-8')`: rejects stray continuation bytes,
truncated sequences, overlong encodings, surrogates and code points above
`0x10FFFF`.  `none` models a raised `UnicodeDecodeError`. -/
def utf8Decode : List Nat → Option (List Nat)
  | [] => some []
  | b :: rest =>
    if b < 0x80 then
      match utf8Decode rest with
      | some cps => some (b :: cps)
      | none => none
    else if 0xC2 ≤ b ∧ b ≤ 0xDF then
      match rest with
      | c1 :: rest' =>
        if isCont c1 then
          match utf8Decode rest' with
          | some cps => some (((b - 0xC0) * 0x40 + (c1 - 0x80)) :: cps)
          | none => none
        else none
      | [] => none
    else if 0xE0 ≤ b ∧ b ≤ 0xEF then
      match rest with
      | c1 :: c2 :: rest' =>
        if isCont c1 ∧ isCont c2 then
          if 0x800 ≤ (b - 0xE0) * 0x1000 + (c1 - 0x80) * 0x40 + (c2 - 0x80) ∧
              ¬ (0xD800 ≤ (b - 0xE0) * 0x1000 + (c1 - 0x80) * 0x40 + (c2 - 0x80) ∧
                 (b - 0xE0) * 0x1000 + (c1 - 0x80) * 0x40 + (c2 - 0x80) ≤ 0xDFFF) then
            match utf8Decode rest' with
            | some cps =>
              some (((b - 0xE0) * 0x1000 + (c1 - 0x80) * 0x40 + (c2 - 0x80)) :: cps)
            | none => none
          else none
        else none
      | _ => none
    else if 0xF0 ≤ b ∧ b ≤ 0xF4 then
      match rest with
      | c1 :: c2 :: c3 :: rest' =>
        if isCont c1 ∧ isCont c2 ∧ isCont c3 then
          if 0x10000 ≤ (b - 0xF0) * 0x40000 + (c1 - 0x80) * 0x1000 +
                (c2 - 0x80) * 0x40 + (c3 - 0x80) ∧
              (b - 0xF0) * 0x40000 + (c1 - 0x80) * 0x1000 +
                (c2 - 0x80) * 0x40 + (c3 - 0x80) ≤ 0x10FFFF then
            match utf8Decode rest' with
            | some cps =>
              some (((b - 0xF0) * 0x40000 + (c1 - 0x80) * 0x1000 +
                (c2 - 0x80) * 0x40 + (c3 - 0x80)) :: cps)
            | none => none
          else none
        else none
      | _ => none
    else none

/-- `BaseStorage.get_json` over a `MemoryStorage` backend (lines 71-76):
`data = await self.get(key)`, then `if data: return
json.loads(data.decode('utf-8'))`, else `return None`.  The byte-to-text
step is `utf8Decode`; the JSON parse is the parameter `loads` (with
`.error` where the library raises).  Neither call is wrapped in a handler
in the source, so a failure of either propagates to `get_json`'s caller;
`.error` models that raised exception. -/
def getJson {K : Type} {J : Type} [DecidableEq K]
    (loads : List Nat → Except String J)
    (s : MemoryStorage.State K (List Nat)) (k : K) (now : Nat) :
    Except String (Option J) × MemoryStorage.State K (List Nat) :=
  match (MemoryStorage.get s k now).1 with
  | some d =>
    if d ≠ [] then
      match utf8Decode d with
      | none =>
        (Except.error "UnicodeDecodeError", (MemoryStorage.get s k now).2)
      | some cps =>
        match loads cps with
        | Except.ok j => (Except.ok (some j), (MemoryStorage.get s k now).2)
        | Except.error e => (Except.error e, (MemoryStorage.get s k now).2)
    else (Except.ok none, (MemoryStorage.get s k now).2)
  | none => (Except.ok none, (MemoryStorage.get s k now).2)

end BaseStorage
/-! ## RedisStorage (`src/redis_client.py` lines 193-308) -/

namespace RedisStorage

/-- The connection-handle state of a `RedisStorage` instance:
`self._redis` (a handle identified by its creation index), the
consecutive-failure counter `self._connection_error_count`, and how many
client objects `aioredis.from_url` has produced so far (the
"connection-creation counter" the spec's test uses to distinguish
handles). -/
structure Conn where
  redis : Option Nat
  errorCount : Nat
  created : Nat
deriving DecidableEq, Repr

/-- `RedisStorage.__init__` (lines 203-208): no handle, zero failures. -/
def initConn : Conn := ⟨none, 0, 0⟩

/-- `self._max_retries = 3` (line 208). -/
def maxRetries : Nat := 3

/-- `RedisStorage._get_client` (lines 210-227): return the existing handle,
or lazily create a fresh one (and reset the failure counter, line 226). -/
def getClient (c : Conn) : Nat × Conn :=
  match c.redis with
  | some h => (h, c)
  | none => (c.created + 1, ⟨some (c.created + 1), 0, c.created + 1⟩)

/-- The `except` arm of `_execute_with_retry` (lines 237-250): increment the
consecutive-failure counter; once it exceeds 5, close and null out the
handle and reset the counter. -/
def failStep (c : Conn) : Conn :=
  if 5 < c.errorCount + 1 then ⟨none, 0, c.created⟩
  else ⟨c.redis, c.errorCount + 1, c.created⟩

/-- Observable outcome of one `_execute_with_retry` call: the returned
value (`none` models the `return None` after exhaustion), the final
connection state, the number of attempts made, the backoff sleeps issued
(in seconds), and the client handle used by each attempt. -/
structure RetryOut (A : Type) where
  result : Option A
  conn : Conn
  attempts : Nat
  sleeps : List ℚ
  clients : List Nat
deriving Repr

/-- The `for attempt in range(self._max_retries)` loop of
`_execute_with_retry` (lines 233-256), iterating over the list of attempt
numbers.  `f` is the backend behaviour: `f i` is the outcome of the `i`-th
backend invocation overall (`.error` models a raised exception), `start`
the index of this call's first attempt.  After a failed attempt the loop
sleeps `0.5 * (attempt + 1)` seconds unless the attempt was the last;
falling off the loop returns `None`. -/
def retryLoop {A : Type} (f : Nat → Except Unit A) (start : Nat) :
    List Nat → Conn → RetryOut A
  | [], c => ⟨none, c, 0, [], []⟩
  | attempt :: laterAttempts, c =>
    match getClient c with
    | (h, c₁) =>
      match f (start + attempt) with
      | Except.ok a => ⟨some a, c₁, 1, [], [h]⟩
      | Except.error _ =>
        let c₂ := failStep c₁
        let sl : List ℚ :=
          if attempt < maxRetries - 1 then [(1 / 2 : ℚ) * (attempt + 1)] else []
        let out := retryLoop f start laterAttempts c₂
        ⟨out.result, out.conn, out.attempts + 1, sl ++ out.sleeps, h :: out.clients⟩

/-- `RedisStorage._execute_with_retry` (lines 229-256). -/
def execWithRetry {A : Type} (c : Conn) (f : Nat → Except Unit A)
    (start : Nat) : RetryOut A :=
  retryLoop f start (List.range maxRetries) c

/-- `RedisStorage.get` (lines 258-263): returns the retry result as-is, so
both "key absent" and "all attempts failed" surface as `None`. -/
def rGet {V : Type} (c : Conn) (f : Nat → Except Unit (Option V))
    (start : Nat) : Option V × RetryOut (Option V) :=
  ((execWithRetry c f start).result.join, execWithRetry c f start)

/-- `RedisStorage.set` (lines 265-274): the inner closure returns `True`,
and the method returns `result is True`. -/
def rSet (c : Conn) (f : Nat → Except Unit Unit) (start : Nat) :
    Bool × RetryOut Bool :=
  (decide ((execWithRetry c (fun i => (f i).map (fun _ => true)) start).result
      = some true),
   execWithRetry c (fun i => (f i).map (fun _ => true)) start)

/-- `RedisStorage.delete` (lines 276-281): returns `result is not None`. -/
def rDelete (c : Conn) (f : Nat → Except Unit Nat) (start : Nat) :
    Bool × RetryOut Nat :=
  ((execWithRetry c f start).result.isSome, execWithRetry c f start)

/-- `RedisStorage.exists` (lines 283-288): returns
`result is not None and result > 0`. -/
def rExists (c : Conn) (f : Nat → Except Unit Nat) (start : Nat) :
    Bool × RetryOut Nat :=
  (match (execWithRetry c f start).result with
   | some n => decide (0 < n)
   | none => false,
   execWithRetry c f start)

/-- `RedisStorage.keys` (lines 290-298): a `None` retry result becomes the
empty list. -/
def rKeys (c : Conn) (f : Nat → Except Unit (List String)) (start : Nat) :
    List String × RetryOut (List String) :=
  (match (execWithRetry c f start).result with
   | some l => l
   | none => [],
   execWithRetry c f start)

/-- The wire command issued by `RedisStorage.set` (lines 266-270): `SETEX`
when the ttl is truthy, plain `SET` otherwise. -/
inductive Cmd (V : Type) where
  | setex (key : String) (ttl : Nat) (value : V)
  | plainSet (key : String) (value : V)
deriving DecidableEq

/-- Which command `RedisStorage.set` issues for a given ttl (`if ttl:`). -/
def setCommand {V : Type} (k : String) (v : V) (ttl : Option Nat) : Cmd V :=
  if MemoryStorage.pyTruthy ttl then Cmd.setex k (ttl.getD 0) v
  else Cmd.plainSet k v

end RedisStorage
/-! ## GenerationTask / TaskStorage (`src/task_storage.py`) -/

/-- `TaskStatus` (`task_storage.py` lines 17-22). -/
inductive TaskStatus where
  | pending
  | running
  | completed
  | failed
deriving DecidableEq, Repr

/-- The scalar tag of each status (`TaskStatus.PENDING = "pending"`, …). -/
def TaskStatus.value : TaskStatus → String
  | .pending => "pending"
  | .running => "running"
  | .completed => "completed"
  | .failed => "failed"

/-- `TaskStatus(tag)` enum construction from a stored tag (`from_dict`
line 76); `none` models the `ValueError` the enum raises for an unknown
tag. -/
def TaskStatus.ofValue (s : String) : Option TaskStatus :=
  if s = "pending" then some .pending
  else if s = "running" then some .running
  else if s = "completed" then some .completed
  else if s = "failed" then some .failed
  else none

/-- A produced-item descriptor (`Dict[str, Any]` in the source): opaque to
the registry, which only appends and stores it. -/
abbrev Emo := List (String × String)

/-- The ISO-8601 text `datetime.isoformat()` produces, modelled by the
instant it encodes: `isoformat` is injective down to microseconds and
`datetime.fromisoformat` inverts it exactly, which is all the registry
relies on. -/
structure Iso8601 where
  instant : Nat
deriving DecidableEq, Repr

/-- `datetime.isoformat()` (library call in `to_dict`, lines 53-54). -/
def datetimeIsoformat (d : Nat) : Iso8601 := ⟨d⟩

/-- `datetime.fromisoformat(...)` (library call in `from_dict`,
lines 63, 69). -/
def datetimeFromIsoformat (s : Iso8601) : Nat := s.instant

/-- `GenerationTask` (`task_storage.py` lines 25-38).  Instants are
explicit microsecond counts. -/
structure GenerationTask where
  task_id : String
  status : TaskStatus
  emoticon_type : String
  total_count : Int
  completed_count : Int
  current_description : String
  emoticons : List Emo
  icon : Option Emo
  error_message : Option String
  created_at : Nat
  updated_at : Nat
deriving DecidableEq, Repr

/-- Python's `round()` — round half to even — on the exact rational.  (The
source rounds the float `completed_count / total_count * 100`; the integer
results agree for the registry's values.) -/
def pyRound (q : ℚ) : Int :=
  if q - ⌊q⌋ < 1 / 2 then ⌊q⌋
  else if 1 / 2 < q - ⌊q⌋ then ⌊q⌋ + 1
  else if Even ⌊q⌋ then ⌊q⌋ else ⌊q⌋ + 1

/-- The dictionary shape `GenerationTask.to_dict` produces (lines 40-55),
which is also exactly what the JSON layer persists and hands back:
`set_json`/`get_json` UTF-8-JSON-encode and decode this dict, and that
round-trip is the identity on it (every field is JSON-native after
`to_dict`'s own conversions), so storage is modelled at the dict level. -/
structure TaskDict where
  task_id : String
  status : String
  emoticon_type : String
  total_count : Int
  completed_count : Int
  current_description : String
  progress_percent : Int
  emoticons : List Emo
  icon : Option Emo
  error_message : Option String
  created_at : Iso8601
  updated_at : Iso8601
deriving DecidableEq, Repr

/-- `GenerationTask.to_dict` (lines 40-55). -/
def GenerationTask.to_dict (t : GenerationTask) : TaskDict :=
  { task_id := t.task_id
    status := t.status.value
    emoticon_type := t.emoticon_type
    total_count := t.total_count
    completed_count := t.completed_count
    current_description := t.current_description
    progress_percent :=
      if 0 < t.total_count then
        pyRound ((t.completed_count : ℚ) / (t.total_count : ℚ) * 100)
      else 0
    emoticons := t.emoticons
    icon := t.icon
    error_message := t.error_message
    created_at := datetimeIsoformat t.created_at
    updated_at := datetimeIsoformat t.updated_at }

/-- `GenerationTask.from_dict` (lines 57-90), on the dict shape `to_dict`
persists (timestamps as ISO strings, status as its tag; the source's
fallback branches for missing keys or pre-parsed fields are unreachable on
that shape).  `none` models the `ValueError` raised for an unknown status
tag. -/
def GenerationTask.from_dict (d : TaskDict) : Option GenerationTask :=
  match TaskStatus.ofValue d.status with
  | some st =>
    some
      { task_id := d.task_id
        status := st
        emoticon_type := d.emoticon_type
        total_count := d.total_count
        completed_count := d.completed_count
        current_description := d.current_description
        emoticons := d.emoticons
        icon := d.icon
        error_message := d.error_message
        created_at := datetimeFromIsoformat d.created_at
        updated_at := datetimeFromIsoformat d.updated_at }
  | none => none

namespace TaskStorage

/-- `task_key` (`redis_client.py` lines 351-353). -/
def task_key (task_id : String) : String := "task:" ++ task_id

/-- `get_ttl("task")`: the `REDIS_TTL_TASK` default of 86400 s (24 h);
environment overrides are not modelled. -/
def taskTtl : Nat := 86400

/-- `TaskStorage._save_task` (lines 104-107): serialize with `to_dict` and
write under `task_key` with the task ttl. -/
def saveTask (s : MemoryStorage.State String TaskDict) (t : GenerationTask)
    (now : Nat) : MemoryStorage.State String TaskDict :=
  MemoryStorage.set s (task_key t.task_id) t.to_dict (some taskTtl) now

/-- `TaskStorage.get_task` (lines 121-127): read the dict (absent → `None`)
and rebuild the task. -/
def getTask (s : MemoryStorage.State String TaskDict) (task_id : String)
    (now : Nat) :
    Option GenerationTask × MemoryStorage.State String TaskDict :=
  ((MemoryStorage.get s (task_key task_id) now).1.bind GenerationTask.from_dict,
   (MemoryStorage.get s (task_key task_id) now).2)

/-- `TaskStorage.create_task` (lines 109-119); the random id produced by
`_generate_task_id` is the explicit `task_id` argument. -/
def create_task (s : MemoryStorage.State String TaskDict) (task_id : String)
    (emoticon_type : String) (total_count : Int) (now : Nat) :
    GenerationTask × MemoryStorage.State String TaskDict :=
  (⟨task_id, TaskStatus.pending, emoticon_type, total_count, 0, "", [], none,
    none, now, now⟩,
   saveTask s ⟨task_id, TaskStatus.pending, emoticon_type, total_count, 0, "",
    [], none, none, now, now⟩ now)

/-- `TaskStorage.update_task_status` (lines 129-135). -/
def update_task_status (s : MemoryStorage.State String TaskDict) (id : String)
    (st : TaskStatus) (now : Nat) : MemoryStorage.State String TaskDict :=
  match (getTask s id now).1 with
  | some t => saveTask (getTask s id now).2
      { t with status := st, updated_at := now } now
  | none => (getTask s id now).2

/-- `TaskStorage.update_task_progress` (lines 137-149). -/
def update_task_progress (s : MemoryStorage.State String TaskDict) (id : String)
    (completed_count : Int) (current_description : String) (now : Nat) :
    MemoryStorage.State String TaskDict :=
  match (getTask s id now).1 with
  | some t => saveTask (getTask s id now).2
      { t with completed_count := completed_count,
               current_description := current_description,
               updated_at := now } now
  | none => (getTask s id now).2

/-- `TaskStorage.add_emoticon` (lines 151-157). -/
def add_emoticon (s : MemoryStorage.State String TaskDict) (id : String)
    (e : Emo) (now : Nat) : MemoryStorage.State String TaskDict :=
  match (getTask s id now).1 with
  | some t => saveTask (getTask s id now).2
      { t with emoticons := t.emoticons ++ [e], updated_at := now } now
  | none => (getTask s id now).2

/-- `TaskStorage.set_icon` (lines 159-165). -/
def set_icon (s : MemoryStorage.State String TaskDict) (id : String)
    (ic : Emo) (now : Nat) : MemoryStorage.State String TaskDict :=
  match (getTask s id now).1 with
  | some t => saveTask (getTask s id now).2
      { t with icon := some ic, updated_at := now } now
  | none => (getTask s id now).2

/-- `TaskStorage.set_error` (lines 167-174). -/
def set_error (s : MemoryStorage.State String TaskDict) (id : String)
    (msg : String) (now : Nat) : MemoryStorage.State String TaskDict :=
  match (getTask s id now).1 with
  | some t => saveTask (getTask s id now).2
      { t with status := TaskStatus.failed, error_message := some msg,
               updated_at := now } now
  | none => (getTask s id now).2

/-- `TaskStorage.complete_task` (lines 176-182). -/
def complete_task (s : MemoryStorage.State String TaskDict) (id : String)
    (now : Nat) : MemoryStorage.State String TaskDict :=
  match (getTask s id now).1 with
  | some t => saveTask (getTask s id now).2
      { t with status := TaskStatus.completed, updated_at := now } now
  | none => (getTask s id now).2

end TaskStorage

/-! ## Theorems -/

namespace KV

variable {K : Type} {α : Type} {β : Type} [DecidableEq K]

@[simp] theorem lookupKey_nil (k : K) : lookupKey ([] : List (K × α)) k = none := rfl

@[simp] theorem lookupKey_cons (q : K × α) (t : List (K × α)) (k : K) :
    lookupKey (q :: t) k = if q.1 = k then some q.2 else lookupKey t k := rfl

@[simp] theorem keysOf_nil : keysOf ([] : List (K × α)) = [] := rfl

@[simp] theorem keysOf_cons (p : K × α) (l : List (K × α)) :
    keysOf (p :: l) = p.1 :: keysOf l := rfl

@[simp] theorem keysOf_append (l₁ l₂ : List (K × α)) :
    keysOf (l₁ ++ l₂) = keysOf l₁ ++ keysOf l₂ := by
  simp [keysOf]

theorem keysOf_filter (p : K → Bool) (l : List (K × α)) :
    keysOf (l.filter (fun q => p q.1)) = (keysOf l).filter p := by
  induction l with
  | nil => rfl
  | cons q t ih =>
    by_cases h : p q.1 <;> simp [List.filter_cons, h, ih]

theorem length_keysOf (l : List (K × α)) : (keysOf l).length = l.length := by
  simp [keysOf]

theorem mem_keysOf_iff_lookup {l : List (K × α)} {k : K} :
    k ∈ keysOf l ↔ (lookupKey l k).isSome := by
  induction l with
  | nil => simp [keysOf, lookupKey]
  | cons q t ih =>
    rw [keysOf_cons, List.mem_cons]
    by_cases h : q.1 = k
    · simp [lookupKey, h]
    · rw [lookupKey, if_neg h, ← ih]
      constructor
      · rintro (h1 | h2)
        · exact absurd h1.symm h
        · exact h2
      · exact Or.inr

theorem keysOf_removeKey (l : List (K × α)) (k : K) :
    keysOf (removeKey l k) = (keysOf l).filter (fun a => decide (a ≠ k)) := by
  simpa [removeKey] using keysOf_filter (fun a => decide (a ≠ k)) l

theorem keysOf_removeKeys (l : List (K × α)) (ks : List K) :
    keysOf (removeKeys l ks) = (keysOf l).filter (fun a => decide (a ∉ ks)) := by
  simpa [removeKeys] using keysOf_filter (fun a => decide (a ∉ ks)) l

theorem mem_keysOf_removeKeys {l : List (K × α)} {ks : List K} {k : K} :
    k ∈ keysOf (removeKeys l ks) ↔ k ∈ keysOf l ∧ k ∉ ks := by
  simp [keysOf_removeKeys, List.mem_filter]

theorem mem_keysOf_removeKey {l : List (K × α)} {a k : K} :
    k ∈ keysOf (removeKey l a) ↔ k ∈ keysOf l ∧ k ≠ a := by
  simp [keysOf_removeKey, List.mem_filter]

theorem nodup_keysOf_removeKeys {l : List (K × α)} {ks : List K}
    (h : (keysOf l).Nodup) : (keysOf (removeKeys l ks)).Nodup := by
  rw [keysOf_removeKeys]; exact h.filter _

theorem nodup_keysOf_removeKey {l : List (K × α)} {k : K}
    (h : (keysOf l).Nodup) : (keysOf (removeKey l k)).Nodup := by
  rw [keysOf_removeKey]; exact h.filter _

theorem removeKey_eq_self_of_not_mem {l : List (K × α)} {k : K}
    (h : k ∉ keysOf l) : removeKey l k = l := by
  apply List.filter_eq_self.mpr
  intro p hp
  simp only [decide_eq_true_eq]
  intro he
  exact h (he ▸ (List.mem_map_of_mem Prod.fst hp : p.1 ∈ keysOf l))

@[simp] theorem removeKeys_nil (l : List (K × α)) : removeKeys l [] = l := by
  simp [removeKeys]

theorem removeKeys_cons (l : List (K × α)) (a : K) (ks : List K) :
    removeKeys l (a :: ks) = removeKeys (removeKey l a) ks := by
  simp only [removeKeys, removeKey, List.filter_filter]
  apply List.filter_congr
  intro p _
  by_cases h1 : p.1 = a <;> by_cases h2 : p.1 ∈ ks <;> simp [h1, h2]

theorem removeKey_cons_of_eq {q : K × α} {t : List (K × α)} {k : K}
    (h : q.1 = k) : removeKey (q :: t) k = removeKey t k := by
  simp [removeKey, List.filter_cons, h]

theorem removeKey_cons_of_ne {q : K × α} {t : List (K × α)} {k : K}
    (h : q.1 ≠ k) : removeKey (q :: t) k = q :: removeKey t k := by
  simp [removeKey, List.filter_cons, h]

theorem removeKeys_cons_of_mem {q : K × α} {t : List (K × α)} {ks : List K}
    (h : q.1 ∈ ks) : removeKeys (q :: t) ks = removeKeys t ks := by
  simp [removeKeys, List.filter_cons, h]

theorem removeKeys_cons_of_not_mem {q : K × α} {t : List (K × α)} {ks : List K}
    (h : q.1 ∉ ks) : removeKeys (q :: t) ks = q :: removeKeys t ks := by
  simp [removeKeys, List.filter_cons, h]

theorem length_removeKey_add_one {l : List (K × α)} {k : K}
    (hnd : (keysOf l).Nodup) (hk : k ∈ keysOf l) :
    (removeKey l k).length + 1 = l.length := by
  induction l with
  | nil => cases hk
  | cons q t ih =>
    rw [keysOf_cons, List.nodup_cons] at hnd
    rw [keysOf_cons] at hk
    rcases List.mem_cons.mp hk with h | h
    · rw [removeKey_cons_of_eq h.symm,
        removeKey_eq_self_of_not_mem (h ▸ hnd.1)]
      simp
    · have hqk : q.1 ≠ k := fun he => hnd.1 (he ▸ h)
      rw [removeKey_cons_of_ne hqk]
      have := ih hnd.2 h
      simp only [List.length_cons]
      omega

theorem length_removeKeys_add {l : List (K × α)} {ks : List K}
    (hnd : (keysOf l).Nodup) (hks : ks.Nodup) (hsub : ∀ k ∈ ks, k ∈ keysOf l) :
    (removeKeys l ks).length + ks.length = l.length := by
  induction ks generalizing l with
  | nil => simp
  | cons a t ih =>
    rw [removeKeys_cons]
    have ha : a ∈ keysOf l := hsub a (List.mem_cons_self a t)
    have hnd' : (keysOf (removeKey l a)).Nodup := nodup_keysOf_removeKey hnd
    have hndt : t.Nodup := (List.nodup_cons.mp hks).2
    have hat : a ∉ t := (List.nodup_cons.mp hks).1
    have hsub' : ∀ k ∈ t, k ∈ keysOf (removeKey l a) := by
      intro k hkt
      exact mem_keysOf_removeKey.mpr
        ⟨hsub k (List.mem_cons_of_mem a hkt), fun he => hat (he ▸ hkt)⟩
    have h1 := ih hnd' hndt hsub'
    have h2 := length_removeKey_add_one hnd ha
    simp only [List.length_cons]
    omega

theorem length_removeKeys_le (l : List (K × α)) (ks : List K) :
    (removeKeys l ks).length ≤ l.length :=
  List.length_filter_le _ l

theorem length_removeKey_le (l : List (K × α)) (k : K) :
    (removeKey l k).length ≤ l.length :=
  List.length_filter_le _ l

theorem lookupKey_removeKeys_of_not_mem {l : List (K × α)} {ks : List K} {k : K}
    (h : k ∉ ks) : lookupKey (removeKeys l ks) k = lookupKey l k := by
  induction l with
  | nil => rfl
  | cons q t ih =>
    by_cases hq : q.1 ∈ ks
    · have hqk : q.1 ≠ k := fun he => h (he ▸ hq)
      rw [removeKeys_cons_of_mem hq, ih, lookupKey, if_neg hqk]
    · rw [removeKeys_cons_of_not_mem hq]
      by_cases he : q.1 = k
      · rw [lookupKey, if_pos he, lookupKey, if_pos he]
      · rw [lookupKey, if_neg he, lookupKey, if_neg he, ih]

theorem lookupKey_removeKey_of_ne {l : List (K × α)} {a k : K} (h : k ≠ a) :
    lookupKey (removeKey l a) k = lookupKey l k := by
  have he : removeKey l a = removeKeys l [a] := by simp [removeKey, removeKeys]
  rw [he]
  exact lookupKey_removeKeys_of_not_mem (by simpa using h)

theorem lookupKey_removeKey_self (l : List (K × α)) (k : K) :
    lookupKey (removeKey l k) k = none := by
  induction l with
  | nil => rfl
  | cons q t ih =>
    by_cases hq : q.1 = k
    · rw [removeKey_cons_of_eq hq, ih]
    · rw [removeKey_cons_of_ne hq, lookupKey, if_neg hq, ih]

theorem keysOf_insertKey_of_mem {l : List (K × α)} {k : K} (v : α)
    (h : k ∈ keysOf l) : keysOf (insertKey l k v) = keysOf l := by
  rw [insertKey, if_pos h]
  simp only [keysOf, List.map_map]
  apply List.map_congr_left
  intro p _
  by_cases hp : p.1 = k <;> simp [Function.comp, hp]

theorem insertKey_of_not_mem {l : List (K × α)} {k : K} (v : α)
    (h : k ∉ keysOf l) : insertKey l k v = l ++ [(k, v)] := by
  simp [insertKey, h]

theorem length_insertKey_le (l : List (K × α)) (k : K) (v : α) :
    (insertKey l k v).length ≤ l.length + 1 := by
  by_cases h : k ∈ keysOf l
  · simp [insertKey, h]
  · simp [insertKey, h]

theorem nodup_keysOf_insertKey {l : List (K × α)} {k : K} (v : α)
    (h : (keysOf l).Nodup) : (keysOf (insertKey l k v)).Nodup := by
  by_cases hm : k ∈ keysOf l
  · rw [keysOf_insertKey_of_mem v hm]; exact h
  · rw [insertKey_of_not_mem v hm, keysOf_append, List.nodup_append]
    refine ⟨h, List.nodup_singleton k, ?_⟩
    intro a ha hb
    have hak : a = k := by simpa [keysOf] using hb
    exact hm (hak ▸ ha)

theorem mem_keysOf_insertKey {l : List (K × α)} {k b : K} {v : α} :
    b ∈ keysOf (insertKey l k v) ↔ b ∈ keysOf l ∨ b = k := by
  by_cases hm : k ∈ keysOf l
  · rw [keysOf_insertKey_of_mem v hm]
    constructor
    · exact Or.inl
    · rintro (h | rfl)
      · exact h
      · exact hm
  · rw [insertKey_of_not_mem v hm]
    simp [keysOf]

theorem lookupKey_map_replace_self (l : List (K × α)) (k : K) (v : α)
    (hm : k ∈ keysOf l) :
    lookupKey (l.map (fun p => if p.1 = k then (k, v) else p)) k = some v := by
  induction l with
  | nil => cases hm
  | cons q t ih =>
    by_cases hq : q.1 = k
    · simp only [List.map_cons, if_pos hq, lookupKey_cons]
      simp
    · rw [keysOf_cons, List.mem_cons] at hm
      rcases hm with h | h
      · exact absurd h.symm hq
      · simp only [List.map_cons, if_neg hq, lookupKey_cons, if_neg hq]
        exact ih h

theorem lookupKey_insertKey_self (l : List (K × α)) (k : K) (v : α) :
    lookupKey (insertKey l k v) k = some v := by
  by_cases hm : k ∈ keysOf l
  · rw [insertKey, if_pos hm]
    exact lookupKey_map_replace_self l k v hm
  · rw [insertKey_of_not_mem v hm]
    induction l with
    | nil => simp
    | cons q t ih =>
      have hq : q.1 ≠ k := by
        intro he
        exact hm (by rw [keysOf_cons, he]; exact List.mem_cons_self _ _)
      have hm' : k ∉ keysOf t := by
        intro hx
        exact hm (by rw [keysOf_cons]; exact List.mem_cons_of_mem _ hx)
      rw [List.cons_append, lookupKey_cons, if_neg hq]
      exact ih hm'

theorem lookupKey_map_replace_ne (l : List (K × α)) (k b : K) (v : α)
    (h : b ≠ k) :
    lookupKey (l.map (fun p => if p.1 = k then (k, v) else p)) b =
      lookupKey l b := by
  induction l with
  | nil => rfl
  | cons q t ih =>
    by_cases hq : q.1 = k
    · have hqb : q.1 ≠ b := fun he => h (he ▸ hq)
      simp only [List.map_cons, if_pos hq, lookupKey_cons,
        if_neg (Ne.symm h), if_neg hqb]
      exact ih
    · simp only [List.map_cons, if_neg hq, lookupKey_cons]
      by_cases hqb : q.1 = b
      · rw [if_pos hqb, if_pos hqb]
      · rw [if_neg hqb, if_neg hqb]
        exact ih

theorem lookupKey_insertKey_of_ne {l : List (K × α)} {k b : K} (v : α)
    (h : b ≠ k) : lookupKey (insertKey l k v) b = lookupKey l b := by
  by_cases hm : k ∈ keysOf l
  · rw [insertKey, if_pos hm]
    exact lookupKey_map_replace_ne l k b v h
  · rw [insertKey_of_not_mem v hm]
    induction l with
    | nil => simp [Ne.symm h]
    | cons q t ih =>
      have hm' : k ∉ keysOf t := by
        intro hx
        exact hm (by rw [keysOf_cons]; exact List.mem_cons_of_mem _ hx)
      by_cases hqb : q.1 = b
      · rw [List.cons_append, lookupKey_cons, if_pos hqb, lookupKey_cons,
          if_pos hqb]
      · rw [List.cons_append, lookupKey_cons, if_neg hqb, lookupKey_cons,
          if_neg hqb]
        exact ih hm'

end KV
namespace MemoryStorage

open KV

variable {K : Type} {V : Type} [DecidableEq K]

theorem WF_empty : WF (emptyState K V) := by
  refine ⟨List.nodup_nil, List.nodup_nil, ?_, ?_⟩ <;> simp [emptyState, keysOf]

theorem WF_cleanupExpired {s : State K V} (h : WF s) (now : Nat) :
    WF (cleanupExpired s now) := by
  obtain ⟨h1, h2, h3, h4⟩ := h
  refine ⟨nodup_keysOf_removeKeys h1, nodup_keysOf_removeKeys h2, ?_, ?_⟩
  · intro k
    show k ∈ keysOf (removeKeys s.data (expiredKeys s now)) ↔
        k ∈ keysOf (removeKeys s.expiry (expiredKeys s now))
    rw [mem_keysOf_removeKeys, mem_keysOf_removeKeys, h3]
  · exact le_trans (length_removeKeys_le _ _) h4

theorem length_data_cleanupExpired_le (s : State K V) (now : Nat) :
    (cleanupExpired s now).data.length ≤ s.data.length :=
  length_removeKeys_le _ _

theorem length_keysOf_expiry_eq {s : State K V} (h : WF s) :
    s.expiry.length = s.data.length := by
  obtain ⟨h1, h2, h3, _⟩ := h
  have hperm : (keysOf s.data).Perm (keysOf s.expiry) :=
    (List.perm_ext_iff_of_nodup h1 h2).mpr h3
  have := hperm.length_eq
  rw [length_keysOf, length_keysOf] at this
  omega

theorem enforceVictims_spec {s : State K V} (h : WF s)
    (hgt : ¬ s.data.length ≤ MAX_ITEMS) :
    (enforceVictims s).Nodup ∧ (∀ k ∈ enforceVictims s, k ∈ keysOf s.data) ∧
      (enforceVictims s).length = s.data.length - MAX_ITEMS / 2 := by
  obtain ⟨h1, h2, h3, h4⟩ := h
  have hperm : (s.expiry.mergeSort (fun a b => decide (a.2 ≤ b.2))).Perm
      s.expiry := List.mergeSort_perm _ _
  have hkperm : (keysOf (s.expiry.mergeSort (fun a b => decide (a.2 ≤ b.2)))).Perm
      (keysOf s.expiry) := hperm.map Prod.fst
  have hsortlen : (s.expiry.mergeSort (fun a b => decide (a.2 ≤ b.2))).length
      = s.data.length := by
    rw [hperm.length_eq]
    exact length_keysOf_expiry_eq ⟨h1, h2, h3, h4⟩
  have hvic_take : enforceVictims s =
      (keysOf (s.expiry.mergeSort (fun a b => decide (a.2 ≤ b.2)))).take
        (s.data.length - MAX_ITEMS / 2) := by
    rw [enforceVictims, keysOf, keysOf, List.map_take]
  have hnd_sortkeys :
      (keysOf (s.expiry.mergeSort (fun a b => decide (a.2 ≤ b.2)))).Nodup :=
    hkperm.nodup_iff.mpr h2
  refine ⟨?_, ?_, ?_⟩
  · rw [hvic_take]
    exact (List.take_sublist _ _).nodup hnd_sortkeys
  · intro k hk
    rw [hvic_take] at hk
    exact (h3 k).mpr (hkperm.mem_iff.mp (List.mem_of_mem_take hk))
  · rw [hvic_take, List.length_take, length_keysOf, hsortlen]
    have hhalf : MAX_ITEMS / 2 ≤ MAX_ITEMS := Nat.div_le_self _ _
    omega

theorem WF_enforceMaxItems {s : State K V} (h : WF s) :
    WF (enforceMaxItems s) ∧ (enforceMaxItems s).data.length ≤ MAX_ITEMS := by
  by_cases hle : s.data.length ≤ MAX_ITEMS
  · rw [enforceMaxItems, if_pos hle]
    exact ⟨h, hle⟩
  · obtain ⟨hnd_vic, hvic_sub, hvic_len⟩ := enforceVictims_spec h hle
    obtain ⟨h1, h2, h3, h4⟩ := h
    have hdlen : (removeKeys s.data (enforceVictims s)).length +
        (enforceVictims s).length = s.data.length :=
      length_removeKeys_add h1 hnd_vic hvic_sub
    rw [enforceMaxItems, if_neg hle]
    have hhalf : MAX_ITEMS / 2 ≤ MAX_ITEMS := Nat.div_le_self _ _
    refine ⟨⟨nodup_keysOf_removeKeys h1, nodup_keysOf_removeKeys h2, ?_, ?_⟩, ?_⟩
    · intro k
      show k ∈ keysOf (removeKeys s.data (enforceVictims s)) ↔
          k ∈ keysOf (removeKeys s.expiry (enforceVictims s))
      rw [mem_keysOf_removeKeys, mem_keysOf_removeKeys, h3]
    · show (removeKeys s.data (enforceVictims s)).length ≤ MAX_ITEMS + 1
      omega
    · show (removeKeys s.data (enforceVictims s)).length ≤ MAX_ITEMS
      omega

theorem WF_set {s : State K V} (h : WF s) {ttl : Option Nat}
    (httl : pyTruthy ttl = true) (k : K) (v : V) (now : Nat) :
    WF (set s k v ttl now) := by
  have h₁ := WF_cleanupExpired h now
  obtain ⟨⟨g1, g2, g3, _⟩, glen⟩ := WF_enforceMaxItems h₁
  rw [set, setExpiry, if_pos httl]
  refine ⟨nodup_keysOf_insertKey _ g1, nodup_keysOf_insertKey _ g2, ?_, ?_⟩
  · intro b
    show b ∈ keysOf (insertKey (enforceMaxItems (cleanupExpired s now)).data k v) ↔
        b ∈ keysOf (insertKey (enforceMaxItems (cleanupExpired s now)).expiry k
          (now + ttl.getD 0))
    rw [mem_keysOf_insertKey, mem_keysOf_insertKey, g3 b]
  · show (insertKey (enforceMaxItems (cleanupExpired s now)).data k v).length ≤
        MAX_ITEMS + 1
    have := length_insertKey_le (enforceMaxItems (cleanupExpired s now)).data k v
    omega

theorem WF_removeKey_both {s : State K V} (h : WF s) (k : K) :
    WF ⟨removeKey s.data k, removeKey s.expiry k⟩ := by
  obtain ⟨h1, h2, h3, h4⟩ := h
  refine ⟨nodup_keysOf_removeKey h1, nodup_keysOf_removeKey h2, ?_, ?_⟩
  · intro b
    rw [mem_keysOf_removeKey, mem_keysOf_removeKey, h3]
  · exact le_trans (length_removeKey_le _ _) h4

theorem WF_get {s : State K V} (h : WF s) (k : K) (now : Nat) :
    WF (get s k now).2 := by
  rw [get]
  cases hl : lookupKey s.expiry k with
  | none => exact h
  | some e =>
    by_cases he : e < now
    · simpa [he] using WF_removeKey_both h k
    · simpa [he] using h

theorem WF_existsKey {s : State K V} (h : WF s) (k : K) (now : Nat) :
    WF (existsKey s k now).2 := by
  rw [existsKey]
  cases hl : lookupKey s.expiry k with
  | none => exact h
  | some e =>
    by_cases he : e < now
    · simpa [he] using WF_removeKey_both h k
    · simpa [he] using h

theorem WF_delete {s : State K V} (h : WF s) (k : K) :
    WF (delete s k).2 := WF_removeKey_both h k

theorem WF_stepOp {s : State K V} (h : WF s) {op : MOp K V}
    (hop : setTtlOk op) : WF (stepOp s op) := by
  cases op with
  | getOp k now => exact WF_get h k now
  | setOp k v ttl now => exact WF_set h hop k v now
  | delOp k => exact WF_delete h k
  | existsOp k now => exact WF_existsKey h k now
  | scanOp now => exact WF_cleanupExpired h now

theorem WF_foldl {s : State K V} (h : WF s) (ops : List (MOp K V))
    (hops : ∀ op ∈ ops, setTtlOk op) : WF (ops.foldl stepOp s) := by
  induction ops generalizing s with
  | nil => exact h
  | cons op t ih =>
    rw [List.foldl_cons]
    exact ih (WF_stepOp h (hops op (List.mem_cons_self _ _)))
      (fun o ho => hops o (List.mem_cons_of_mem _ ho))

theorem WF_runOps (ops : List (MOp K V))
    (hops : ∀ op ∈ ops, setTtlOk op) : WF (runOps ops) :=
  WF_foldl WF_empty ops hops

end MemoryStorage
namespace KV

variable {K : Type} {α : Type} [DecidableEq K]

theorem lookupKey_some_mem {l : List (K × α)} {k : K} {v : α}
    (h : lookupKey l k = some v) : (k, v) ∈ l := by
  induction l with
  | nil => cases h
  | cons q t ih =>
    rw [lookupKey_cons] at h
    by_cases hq : q.1 = k
    · rw [if_pos hq] at h
      have : q = (k, v) := by
        obtain ⟨a, b⟩ := q
        cases h
        cases hq
        rfl
      exact this ▸ List.mem_cons_self _ _
    · rw [if_neg hq] at h
      exact List.mem_cons_of_mem _ (ih h)

theorem mem_insertKey_val {l : List (K × α)} {k : K} {v : α} :
    ∀ p ∈ insertKey l k v, p.1 = k → p.2 = v := by
  intro p hp hk
  by_cases hm : k ∈ keysOf l
  · rw [insertKey, if_pos hm] at hp
    obtain ⟨q, hq, hmap⟩ := List.mem_map.mp hp
    by_cases hqk : q.1 = k
    · rw [if_pos hqk] at hmap
      rw [← hmap]
    · rw [if_neg hqk] at hmap
      exact absurd (hmap ▸ hk) hqk
  · rw [insertKey_of_not_mem v hm] at hp
    rcases List.mem_append.mp hp with h | h
    · exact absurd (hk ▸ List.mem_map_of_mem Prod.fst h) hm
    · rw [List.mem_singleton.mp h]

end KV
namespace MemoryStorage

open KV

variable {K : Type} {V : Type} [DecidableEq K]

theorem expiredKeys_zero (s : State K V) : expiredKeys s 0 = [] := by
  rw [expiredKeys]
  have h : s.expiry.filter (fun p => decide (p.2 < 0)) = [] :=
    List.filter_eq_nil_iff.mpr (fun p _ => by simp)
  rw [h, keysOf_nil]

theorem cleanupExpired_zero (s : State K V) : cleanupExpired s 0 = s := by
  rw [cleanupExpired, expiredKeys_zero, removeKeys_nil, removeKeys_nil]

theorem enforceMaxItems_of_le {s : State K V} (h : s.data.length ≤ MAX_ITEMS) :
    enforceMaxItems s = s := by
  rw [enforceMaxItems, if_pos h]

theorem keysOf_range_map (n : Nat) (c : Nat) :
    keysOf ((List.range n).map (fun i => (i, c))) = List.range n := by
  rw [keysOf, List.map_map]
  have h : (Prod.fst ∘ fun i : Nat => (i, c)) = id := by
    funext i
    rfl
  rw [h, List.map_id]

theorem runOps_capOps (n : Nat) (hn : n ≤ MAX_ITEMS + 1) :
    runOps (capOps n) =
      ⟨(List.range n).map (fun i => (i, 0)), (List.range n).map (fun i => (i, 1))⟩ := by
  induction n with
  | zero => rfl
  | succ m ih =>
    have hm : m ≤ MAX_ITEMS + 1 := le_trans (Nat.le_succ m) hn
    have hcap : capOps (m + 1) = capOps m ++ [MOp.setOp m 0 (some 1) 0] := by
      rw [capOps, List.range_succ, List.map_append, capOps]
      rfl
    rw [runOps, hcap, List.foldl_append, ← runOps, ih hm]
    set sm : State Nat Nat :=
      ⟨(List.range m).map (fun i => (i, 0)), (List.range m).map (fun i => (i, 1))⟩
      with hsm
    have hlen : sm.data.length ≤ MAX_ITEMS := by
      rw [hsm]
      simp only [List.length_map, List.length_range]
      omega
    have hnotmem0 : m ∉ keysOf sm.data := by
      rw [hsm, keysOf_range_map]
      simp
    have hnotmem1 : m ∉ keysOf sm.expiry := by
      rw [hsm, keysOf_range_map]
      simp
    simp only [List.foldl_cons, List.foldl_nil, stepOp]
    rw [set, cleanupExpired_zero, enforceMaxItems_of_le hlen, setExpiry]
    have htr : pyTruthy (some 1) = true := by decide
    rw [if_pos htr, insertKey_of_not_mem _ hnotmem0, insertKey_of_not_mem _ hnotmem1]
    rw [hsm]
    simp [List.range_succ]

end MemoryStorage

/-- C1 (amended): after any sequence of `MemoryStorage` operations in which
every `set` supplied a truthy (non-`None`, nonzero) ttl, the store holds at
most `MAX_ITEMS + 1 = 1001` entries — one more than the claimed cap of
`MAX_ITEMS = 1000`, because `set` enforces the cap *before* inserting the
new entry. -/
theorem memoryStorage_capacity_le_max_items_succ {K V : Type} [DecidableEq K]
    (ops : List (MemoryStorage.MOp K V))
    (h : ∀ op ∈ ops, MemoryStorage.setTtlOk op) :
    (MemoryStorage.runOps ops).data.length ≤ MemoryStorage.MAX_ITEMS + 1 :=
  (MemoryStorage.WF_runOps ops h).2.2.2

/-- Witness for the amended C1 bound at a concrete one-element history. -/
theorem memoryStorage_capacity_le_max_items_succ_witness :
    (∀ op ∈ [MemoryStorage.MOp.setOp (0 : Nat) (0 : Nat) (some 1) 0],
        MemoryStorage.setTtlOk op) ∧
      (MemoryStorage.runOps
          [MemoryStorage.MOp.setOp (0 : Nat) (0 : Nat) (some 1) 0]).data.length ≤
        MemoryStorage.MAX_ITEMS + 1 := by
  have h : ∀ op ∈ [MemoryStorage.MOp.setOp (0 : Nat) (0 : Nat) (some 1) 0],
      MemoryStorage.setTtlOk op := by
    intro op hop
    rw [List.mem_singleton.mp hop]
    show MemoryStorage.pyTruthy (some 1) = true
    decide
  exact ⟨h, memoryStorage_capacity_le_max_items_succ _ h⟩

/-- C1 counterexample: storing 1001 distinct keys, each with `ttl = 1`,
leaves the store with 1001 entries immediately after the 1001st `set`
returns — more than `MAX_ITEMS = 1000`, refuting the claimed cap. -/
theorem memoryStorage_capacity_cap_violated :
    ¬ ((MemoryStorage.runOps
          (MemoryStorage.capOps (MemoryStorage.MAX_ITEMS + 1))).data.length ≤
        MemoryStorage.MAX_ITEMS) := by
  rw [MemoryStorage.runOps_capOps (MemoryStorage.MAX_ITEMS + 1) le_rfl]
  simp [MemoryStorage.MAX_ITEMS]

namespace MemoryStorage

open KV

variable {K : Type} {V : Type} [DecidableEq K]

theorem get_eq_of_expiry_live {s : State K V} {k : K} {e now : Nat}
    (hl : lookupKey s.expiry k = some e) (hne : ¬ e < now) :
    get s k now = (lookupKey s.data k, s) := by
  simp only [get, hl, if_neg hne]

theorem get_eq_of_expired {s : State K V} {k : K} {e now : Nat}
    (hl : lookupKey s.expiry k = some e) (he : e < now) :
    get s k now = (none, ⟨removeKey s.data k, removeKey s.expiry k⟩) := by
  simp only [get, hl, if_pos he]

theorem existsKey_eq_of_expiry_live {s : State K V} {k : K} {e now : Nat}
    (hl : lookupKey s.expiry k = some e) (hne : ¬ e < now) :
    existsKey s k now = (decide (k ∈ keysOf s.data), s) := by
  simp only [existsKey, hl, if_neg hne]

theorem existsKey_eq_of_expired {s : State K V} {k : K} {e now : Nat}
    (hl : lookupKey s.expiry k = some e) (he : e < now) :
    existsKey s k now = (false, ⟨removeKey s.data k, removeKey s.expiry k⟩) := by
  simp only [existsKey, hl, if_pos he]

theorem keysOp_star {V : Type} (s : State String V) (now : Nat) :
    keysOp s "*" now = (keysOf (cleanupExpired s now).data, cleanupExpired s now) := by
  simp [keysOp]

theorem set_truthy_eq {s : State K V} {k : K} {v : V} {t w : Nat}
    (ht : 0 < t) :
    set s k v (some t) w =
      ⟨insertKey (enforceMaxItems (cleanupExpired s w)).data k v,
       insertKey (enforceMaxItems (cleanupExpired s w)).expiry k (w + t)⟩ := by
  have htr : pyTruthy (some t) = true := by
    simp only [pyTruthy, decide_eq_true_eq]
    omega
  rw [set, setExpiry, if_pos htr]
  rfl

theorem mem_expiredKeys_of_lookup {s : State K V} {k : K} {e now : Nat}
    (hl : lookupKey s.expiry k = some e) (he : e < now) :
    k ∈ expiredKeys s now := by
  rw [expiredKeys]
  have hm : (k, e) ∈ s.expiry := lookupKey_some_mem hl
  have hf : (k, e) ∈ s.expiry.filter (fun p => decide (p.2 < now)) :=
    List.mem_filter.mpr ⟨hm, by simpa using he⟩
  exact List.mem_map_of_mem Prod.fst hf

end MemoryStorage

/-- C2 (amended): for a key written with `ttl = t` (seconds) at instant `w`,
`get` returns the stored value at every instant `now ≤ w + t` and reports
the key absent at every instant `now > w + t`; `exists` and `keys "*"` flip
at the same boundary.  (The frozen claim put the boundary at `now ≥ w + t`;
the source tests `self._expiry[key] < datetime.now()`, a strict comparison,
so the instant exactly `t` seconds after the write still returns the
value.) -/
theorem memoryStorage_ttl_boundary {V : Type} (s : MemoryStorage.State String V)
    (k : String) (v : V) (t w : Nat) (ht : 0 < t) :
    (∀ now, now ≤ w + t →
      (MemoryStorage.get (MemoryStorage.set s k v (some t) w) k now).1 = some v ∧
      (MemoryStorage.existsKey (MemoryStorage.set s k v (some t) w) k now).1 = true ∧
      k ∈ (MemoryStorage.keysOp (MemoryStorage.set s k v (some t) w) "*" now).1) ∧
    (∀ now, w + t < now →
      (MemoryStorage.get (MemoryStorage.set s k v (some t) w) k now).1 = none ∧
      (MemoryStorage.existsKey (MemoryStorage.set s k v (some t) w) k now).1 = false ∧
      k ∉ (MemoryStorage.keysOp (MemoryStorage.set s k v (some t) w) "*" now).1) := by
  rw [MemoryStorage.set_truthy_eq ht]
  set s₂ := MemoryStorage.enforceMaxItems (MemoryStorage.cleanupExpired s w) with hs₂
  set s' : MemoryStorage.State String V :=
    ⟨KV.insertKey s₂.data k v, KV.insertKey s₂.expiry k (w + t)⟩ with hs'
  have hle : KV.lookupKey s'.expiry k = some (w + t) :=
    KV.lookupKey_insertKey_self _ _ _
  have hld : KV.lookupKey s'.data k = some v :=
    KV.lookupKey_insertKey_self _ _ _
  have hmd : k ∈ KV.keysOf s'.data :=
    KV.mem_keysOf_insertKey.mpr (Or.inr rfl)
  constructor
  · intro now hnow
    have hne : ¬ w + t < now := by omega
    refine ⟨?_, ?_, ?_⟩
    · rw [MemoryStorage.get_eq_of_expiry_live hle hne]
      exact hld
    · rw [MemoryStorage.existsKey_eq_of_expiry_live hle hne]
      simpa using hmd
    · rw [MemoryStorage.keysOp_star]
      have hnotexp : k ∉ MemoryStorage.expiredKeys s' now := by
        intro hk
        rw [MemoryStorage.expiredKeys] at hk
        obtain ⟨p, hp, hfst⟩ := List.mem_map.mp hk
        obtain ⟨hpe, hplt⟩ := List.mem_filter.mp hp
        have hval : p.2 = w + t := KV.mem_insertKey_val p hpe hfst
        simp only [decide_eq_true_eq] at hplt
        omega
      show k ∈ KV.keysOf (KV.removeKeys s'.data (MemoryStorage.expiredKeys s' now))
      exact KV.mem_keysOf_removeKeys.mpr ⟨hmd, hnotexp⟩
  · intro now hnow
    refine ⟨?_, ?_, ?_⟩
    · rw [MemoryStorage.get_eq_of_expired hle hnow]
    · rw [MemoryStorage.existsKey_eq_of_expired hle hnow]
    · rw [MemoryStorage.keysOp_star]
      have hexp : k ∈ MemoryStorage.expiredKeys s' now :=
        MemoryStorage.mem_expiredKeys_of_lookup hle hnow
      show ¬ k ∈ KV.keysOf (KV.removeKeys s'.data (MemoryStorage.expiredKeys s' now))
      intro hk
      exact (KV.mem_keysOf_removeKeys.mp hk).2 hexp

/-- Witness for the amended C2 boundary at a concrete instance:
key `"a"` written with `ttl = 5` at instant `0`. -/
theorem memoryStorage_ttl_boundary_witness :
    0 < 5 ∧
    ((∀ now, now ≤ 0 + 5 →
      (MemoryStorage.get (MemoryStorage.set (MemoryStorage.emptyState String Nat)
          "a" 7 (some 5) 0) "a" now).1 = some 7 ∧
      (MemoryStorage.existsKey (MemoryStorage.set (MemoryStorage.emptyState String Nat)
          "a" 7 (some 5) 0) "a" now).1 = true ∧
      "a" ∈ (MemoryStorage.keysOp (MemoryStorage.set (MemoryStorage.emptyState String Nat)
          "a" 7 (some 5) 0) "*" now).1) ∧
    (∀ now, 0 + 5 < now →
      (MemoryStorage.get (MemoryStorage.set (MemoryStorage.emptyState String Nat)
          "a" 7 (some 5) 0) "a" now).1 = none ∧
      (MemoryStorage.existsKey (MemoryStorage.set (MemoryStorage.emptyState String Nat)
          "a" 7 (some 5) 0) "a" now).1 = false ∧
      "a" ∉ (MemoryStorage.keysOp (MemoryStorage.set (MemoryStorage.emptyState String Nat)
          "a" 7 (some 5) 0) "*" now).1)) :=
  ⟨by decide,
   memoryStorage_ttl_boundary (MemoryStorage.emptyState String Nat) "a" 7 5 0
     (by decide)⟩

/-- C2 counterexample: the frozen claim says a key written with `ttl = 5`
at instant `0` is absent at any instant `≥ 5` after the write, but at
instant exactly `5` the source still returns the value (its expiry test is
strict). -/
theorem memoryStorage_ttl_boundary_counterexample :
    (MemoryStorage.get (MemoryStorage.set (MemoryStorage.emptyState Nat Nat)
        1 7 (some 5) 0) 1 5).1 = some 7 ∧
    (MemoryStorage.existsKey (MemoryStorage.set (MemoryStorage.emptyState Nat Nat)
        1 7 (some 5) 0) 1 5).1 = true := by
  decide

/-- C3 (amended): `get_json` returns `None` only when the key is absent (or
the stored value is empty bytes); a nonempty malformed stored value makes
`get_json` raise — invalid UTF-8 raises `UnicodeDecodeError`, and text the
JSON parser rejects propagates the parser's error — since neither call on
line 75 of `redis_client.py` is wrapped in a handler. -/
theorem getJson_error_propagation {K J : Type} [DecidableEq K]
    (loads : List Nat → Except String J)
    (s : MemoryStorage.State K (List Nat)) (k : K) (now : Nat)
    (d : List Nat) (hd : (MemoryStorage.get s k now).1 = some d)
    (hne : d ≠ []) :
    (BaseStorage.utf8Decode d = none →
      (BaseStorage.getJson loads s k now).1 =
        Except.error "UnicodeDecodeError") ∧
    (∀ cps e, BaseStorage.utf8Decode d = some cps →
      loads cps = Except.error e →
      (BaseStorage.getJson loads s k now).1 = Except.error e) ∧
    ((MemoryStorage.get s k now).1 = none →
      (BaseStorage.getJson loads s k now).1 = Except.ok none) := by
  refine ⟨?_, ?_, ?_⟩
  · intro hu
    simp only [BaseStorage.getJson, hd, hu, if_pos hne]
  · intro cps e hc hl
    simp only [BaseStorage.getJson, hd, hc, hl, if_pos hne]
  · intro hnone
    rw [hnone] at hd
    cases hd

/-- Witness for the amended C3 at a concrete store holding the single
non-UTF-8 byte `0xFF` under key `1`. -/
theorem getJson_error_propagation_witness :
    (MemoryStorage.get (MemoryStorage.set
        (MemoryStorage.emptyState Nat (List Nat)) 1 [255] none 0) 1 0).1 =
      some [255] ∧
    ([255] : List Nat) ≠ [] ∧
    ((BaseStorage.utf8Decode [255] = none →
      (BaseStorage.getJson (fun _ => Except.ok (0 : Nat))
          (MemoryStorage.set (MemoryStorage.emptyState Nat (List Nat))
            1 [255] none 0) 1 0).1 = Except.error "UnicodeDecodeError") ∧
    (∀ cps e, BaseStorage.utf8Decode [255] = some cps →
      (fun _ => Except.ok (0 : Nat)) cps = Except.error e →
      (BaseStorage.getJson (fun _ => Except.ok (0 : Nat))
          (MemoryStorage.set (MemoryStorage.emptyState Nat (List Nat))
            1 [255] none 0) 1 0).1 = Except.error e) ∧
    ((MemoryStorage.get (MemoryStorage.set
        (MemoryStorage.emptyState Nat (List Nat)) 1 [255] none 0) 1 0).1 =
        none →
      (BaseStorage.getJson (fun _ => Except.ok (0 : Nat))
          (MemoryStorage.set (MemoryStorage.emptyState Nat (List Nat))
            1 [255] none 0) 1 0).1 = Except.ok none)) :=
  ⟨rfl, by decide,
   getJson_error_propagation (fun _ => Except.ok (0 : Nat)) _ 1 0 [255] rfl
     (by decide)⟩

/-- C3 counterexample: with the single byte `0xFF` (not valid UTF-8)
stored under key `1`, `get_json` raises `UnicodeDecodeError` instead of
returning `None` — the frozen claim says malformed payloads collapse to
the same outcome as a missing key. -/
theorem getJson_malformed_raises_counterexample :
    (BaseStorage.getJson (fun _ => Except.ok (0 : Nat))
        (MemoryStorage.set (MemoryStorage.emptyState Nat (List Nat))
          1 [255] none 0) 1 0).1 = Except.error "UnicodeDecodeError" ∧
    (BaseStorage.getJson (fun _ => Except.ok (0 : Nat))
        (MemoryStorage.set (MemoryStorage.emptyState Nat (List Nat))
          1 [255] none 0) 1 0).1 ≠ Except.ok none := by
  have h1 : (BaseStorage.getJson (fun _ => Except.ok (0 : Nat))
      (MemoryStorage.set (MemoryStorage.emptyState Nat (List Nat))
        1 [255] none 0) 1 0).1 = Except.error "UnicodeDecodeError" := rfl
  refine ⟨h1, ?_⟩
  rw [h1]
  intro hcontra
  cases hcontra

namespace RedisStorage

theorem range_maxRetries : List.range maxRetries = [0, 1, 2] := rfl

theorem execWithRetry_all_fail {A : Type} (c : Conn)
    (f : Nat → Except Unit A) (start : Nat)
    (h : ∀ i, f i = Except.error ()) :
    (execWithRetry c f start).result = none ∧
    (execWithRetry c f start).attempts = 3 ∧
    (execWithRetry c f start).sleeps = [1 / 2, 1] := by
  simp only [execWithRetry, range_maxRetries, retryLoop, h, maxRetries]
  norm_num

end RedisStorage

/-- C4: when the backend raises on every attempt, `_execute_with_retry`
makes exactly 3 attempts, sleeps `0.5 s × attempt_number` between
consecutive attempts (`0.5 s` then `1.0 s`, none after the final attempt),
and — never raising — each operation returns its failure sentinel: `None`
for `get`, `False` for `set`/`delete`/`exists`, and `[]` for `keys`. -/
theorem redisStorage_retry_exhaustion {V : Type} (c : RedisStorage.Conn)
    (start : Nat)
    (fg : Nat → Except Unit (Option V)) (fs : Nat → Except Unit Unit)
    (fd : Nat → Except Unit Nat) (fe : Nat → Except Unit Nat)
    (fk : Nat → Except Unit (List String))
    (hg : ∀ i, fg i = Except.error ()) (hs : ∀ i, fs i = Except.error ())
    (hd : ∀ i, fd i = Except.error ()) (he : ∀ i, fe i = Except.error ())
    (hk : ∀ i, fk i = Except.error ()) :
    (RedisStorage.execWithRetry c fg start).attempts = 3 ∧
    (RedisStorage.execWithRetry c fg start).sleeps = [1 / 2, 1] ∧
    (RedisStorage.rGet c fg start).1 = none ∧
    (RedisStorage.rSet c fs start).1 = false ∧
    (RedisStorage.rDelete c fd start).1 = false ∧
    (RedisStorage.rExists c fe start).1 = false ∧
    (RedisStorage.rKeys c fk start).1 = [] := by
  have hs' : ∀ i, (fs i).map (fun _ => true) = Except.error () := by
    intro i
    rw [hs i]
    rfl
  obtain ⟨hgr, hga, hgs⟩ := RedisStorage.execWithRetry_all_fail c fg start hg
  obtain ⟨hsr, -, -⟩ := RedisStorage.execWithRetry_all_fail c
    (fun i => (fs i).map (fun _ => true)) start hs'
  obtain ⟨hdr, -, -⟩ := RedisStorage.execWithRetry_all_fail c fd start hd
  obtain ⟨her, -, -⟩ := RedisStorage.execWithRetry_all_fail c fe start he
  obtain ⟨hkr, -, -⟩ := RedisStorage.execWithRetry_all_fail c fk start hk
  refine ⟨hga, hgs, ?_, ?_, ?_, ?_, ?_⟩
  · rw [RedisStorage.rGet, hgr]
    rfl
  · rw [RedisStorage.rSet]
    rw [hsr]
    rfl
  · rw [RedisStorage.rDelete, hdr]
    rfl
  · rw [RedisStorage.rExists]
    rw [her]
  · rw [RedisStorage.rKeys]
    rw [hkr]

/-- Witness for C4: a backend that always raises, run from a fresh
connection state. -/
theorem redisStorage_retry_exhaustion_witness :
    (∀ i, (fun _ : Nat => (Except.error () : Except Unit (Option Nat))) i =
      Except.error ()) ∧
    (RedisStorage.execWithRetry RedisStorage.initConn
        (fun _ : Nat => (Except.error () : Except Unit (Option Nat))) 0).attempts
      = 3 ∧
    (RedisStorage.execWithRetry RedisStorage.initConn
        (fun _ : Nat => (Except.error () : Except Unit (Option Nat))) 0).sleeps
      = [1 / 2, 1] ∧
    (RedisStorage.rGet RedisStorage.initConn
        (fun _ : Nat => (Except.error () : Except Unit (Option Nat))) 0).1
      = none ∧
    (RedisStorage.rSet RedisStorage.initConn
        (fun _ : Nat => (Except.error () : Except Unit Unit)) 0).1 = false ∧
    (RedisStorage.rDelete RedisStorage.initConn
        (fun _ : Nat => (Except.error () : Except Unit Nat)) 0).1 = false ∧
    (RedisStorage.rExists RedisStorage.initConn
        (fun _ : Nat => (Except.error () : Except Unit Nat)) 0).1 = false ∧
    (RedisStorage.rKeys RedisStorage.initConn
        (fun _ : Nat => (Except.error () : Except Unit (List String))) 0).1
      = [] := by
  have h := redisStorage_retry_exhaustion RedisStorage.initConn 0
    (fun _ : Nat => (Except.error () : Except Unit (Option Nat)))
    (fun _ : Nat => (Except.error () : Except Unit Unit))
    (fun _ : Nat => (Except.error () : Except Unit Nat))
    (fun _ : Nat => (Except.error () : Except Unit Nat))
    (fun _ : Nat => (Except.error () : Except Unit (List String)))
    (fun _ => rfl) (fun _ => rfl) (fun _ => rfl) (fun _ => rfl) (fun _ => rfl)
  exact ⟨fun _ => rfl, h.1, h.2.1, h.2.2.1, h.2.2.2.1, h.2.2.2.2.1,
    h.2.2.2.2.2.1, h.2.2.2.2.2.2⟩

/-- C5: the failure arm of `_execute_with_retry` nulls out the handle and
resets the counter as soon as the consecutive-failure counter exceeds 5;
consequently, with a backend failing 6 consecutive times (two exhausted
calls), the second call ends with no handle and a zero counter, and the
third call's successful attempt runs on a freshly created handle
(creation index 2, distinct from handle 1 used by all six failing
attempts). -/
theorem redisStorage_reconnect_after_six_failures {V : Type}
    (f : Nat → Except Unit V) (a : V)
    (hfail : ∀ i, i < 6 → f i = Except.error ()) (hok : f 6 = Except.ok a) :
    (∀ c : RedisStorage.Conn, 5 < c.errorCount + 1 →
      RedisStorage.failStep c = ⟨none, 0, c.created⟩) ∧
    (RedisStorage.execWithRetry RedisStorage.initConn f 0).clients =
      [1, 1, 1] ∧
    (RedisStorage.execWithRetry
        (RedisStorage.execWithRetry RedisStorage.initConn f 0).conn f 3).clients
      = [1, 1, 1] ∧
    (RedisStorage.execWithRetry
        (RedisStorage.execWithRetry RedisStorage.initConn f 0).conn f 3).conn
      = ⟨none, 0, 1⟩ ∧
    (RedisStorage.execWithRetry (RedisStorage.execWithRetry
        (RedisStorage.execWithRetry RedisStorage.initConn f 0).conn f 3).conn
        f 6).result = some a ∧
    (RedisStorage.execWithRetry (RedisStorage.execWithRetry
        (RedisStorage.execWithRetry RedisStorage.initConn f 0).conn f 3).conn
        f 6).clients = [2] := by
  have h0 := hfail 0 (by norm_num)
  have h1 := hfail 1 (by norm_num)
  have h2 := hfail 2 (by norm_num)
  have h3 := hfail 3 (by norm_num)
  have h4 := hfail 4 (by norm_num)
  have h5 := hfail 5 (by norm_num)
  have e1 : RedisStorage.execWithRetry RedisStorage.initConn f 0 =
      ⟨none, ⟨some 1, 3, 1⟩, 3, [1 / 2, 1], [1, 1, 1]⟩ := by
    norm_num [RedisStorage.execWithRetry, RedisStorage.range_maxRetries,
      RedisStorage.retryLoop, RedisStorage.initConn, RedisStorage.getClient,
      RedisStorage.failStep, RedisStorage.maxRetries, h0, h1, h2]
  have e2 : RedisStorage.execWithRetry (⟨some 1, 3, 1⟩ : RedisStorage.Conn)
      f 3 = ⟨none, ⟨none, 0, 1⟩, 3, [1 / 2, 1], [1, 1, 1]⟩ := by
    norm_num [RedisStorage.execWithRetry, RedisStorage.range_maxRetries,
      RedisStorage.retryLoop, RedisStorage.getClient,
      RedisStorage.failStep, RedisStorage.maxRetries, h3, h4, h5]
  have e3 : RedisStorage.execWithRetry (⟨none, 0, 1⟩ : RedisStorage.Conn)
      f 6 = ⟨some a, ⟨some 2, 0, 2⟩, 1, [], [2]⟩ := by
    norm_num [RedisStorage.execWithRetry, RedisStorage.range_maxRetries,
      RedisStorage.retryLoop, RedisStorage.getClient,
      RedisStorage.failStep, RedisStorage.maxRetries, hok]
  refine ⟨?_, ?_, ?_, ?_, ?_, ?_⟩
  · intro c hc
    rw [RedisStorage.failStep, if_pos hc]
  · rw [e1]
  · rw [e1, e2]
  · rw [e1, e2]
  · rw [e1, e2, e3]
  · rw [e1, e2, e3]

/-- Witness for C5: the backend that fails on invocations 0–5 and succeeds
on invocation 6. -/
theorem redisStorage_reconnect_after_six_failures_witness :
    (∀ i, i < 6 →
      (fun i => if i < 6 then (Except.error () : Except Unit Nat)
        else Except.ok 42) i = Except.error ()) ∧
    (fun i => if i < 6 then (Except.error () : Except Unit Nat)
      else Except.ok 42) 6 = Except.ok 42 ∧
    ((∀ c : RedisStorage.Conn, 5 < c.errorCount + 1 →
      RedisStorage.failStep c = ⟨none, 0, c.created⟩) ∧
    (RedisStorage.execWithRetry RedisStorage.initConn
        (fun i => if i < 6 then (Except.error () : Except Unit Nat)
          else Except.ok 42) 0).clients = [1, 1, 1] ∧
    (RedisStorage.execWithRetry
        (RedisStorage.execWithRetry RedisStorage.initConn
          (fun i => if i < 6 then (Except.error () : Except Unit Nat)
            else Except.ok 42) 0).conn
        (fun i => if i < 6 then (Except.error () : Except Unit Nat)
          else Except.ok 42) 3).clients = [1, 1, 1] ∧
    (RedisStorage.execWithRetry
        (RedisStorage.execWithRetry RedisStorage.initConn
          (fun i => if i < 6 then (Except.error () : Except Unit Nat)
            else Except.ok 42) 0).conn
        (fun i => if i < 6 then (Except.error () : Except Unit Nat)
          else Except.ok 42) 3).conn = ⟨none, 0, 1⟩ ∧
    (RedisStorage.execWithRetry (RedisStorage.execWithRetry
        (RedisStorage.execWithRetry RedisStorage.initConn
          (fun i => if i < 6 then (Except.error () : Except Unit Nat)
            else Except.ok 42) 0).conn
        (fun i => if i < 6 then (Except.error () : Except Unit Nat)
          else Except.ok 42) 3).conn
        (fun i => if i < 6 then (Except.error () : Except Unit Nat)
          else Except.ok 42) 6).result = some 42 ∧
    (RedisStorage.execWithRetry (RedisStorage.execWithRetry
        (RedisStorage.execWithRetry RedisStorage.initConn
          (fun i => if i < 6 then (Except.error () : Except Unit Nat)
            else Except.ok 42) 0).conn
        (fun i => if i < 6 then (Except.error () : Except Unit Nat)
          else Except.ok 42) 3).conn
        (fun i => if i < 6 then (Except.error () : Except Unit Nat)
          else Except.ok 42) 6).clients = [2]) :=
  ⟨fun i hi => by simp [hi], by norm_num,
   redisStorage_reconnect_after_six_failures
     (fun i => if i < 6 then (Except.error () : Except Unit Nat)
       else Except.ok 42) 42
     (fun i hi => by simp [hi]) (by norm_num)⟩

/-- C10: `set(key, value, ttl=0)` stores a permanent entry on either
backend, exactly as an omitted ttl does, because both backends test the
ttl for truthiness (`if ttl:`): `MemoryStorage.set` takes the
clear-prior-expiry branch (so the key's expiry lookup is empty afterwards),
and `RedisStorage.set` issues a plain `SET` instead of `SETEX`. -/
theorem set_ttl_zero_is_permanent {V : Type}
    (s : MemoryStorage.State String V) (k : String) (v : V) (now : Nat) :
    MemoryStorage.set s k v (some 0) now = MemoryStorage.set s k v none now ∧
    KV.lookupKey (MemoryStorage.set s k v (some 0) now).expiry k = none ∧
    RedisStorage.setCommand k v (some 0) = RedisStorage.Cmd.plainSet k v ∧
    RedisStorage.setCommand k v none = RedisStorage.Cmd.plainSet k v := by
  have hfalsy : MemoryStorage.pyTruthy (some 0) = false := by decide
  have hfalsy' : MemoryStorage.pyTruthy none = false := rfl
  refine ⟨?_, ?_, ?_, ?_⟩
  · rw [MemoryStorage.set, MemoryStorage.set, MemoryStorage.setExpiry,
      MemoryStorage.setExpiry, hfalsy, hfalsy']
    simp only [Bool.false_eq_true, if_false]
  · rw [MemoryStorage.set, MemoryStorage.setExpiry, hfalsy]
    simp only [Bool.false_eq_true, if_false]
    by_cases hm : k ∈ KV.keysOf
        (MemoryStorage.enforceMaxItems (MemoryStorage.cleanupExpired s now)).expiry
    · rw [if_pos hm]
      exact KV.lookupKey_removeKey_self _ _
    · rw [if_neg hm]
      cases hl : KV.lookupKey
          (MemoryStorage.enforceMaxItems (MemoryStorage.cleanupExpired s now)).expiry
          k with
      | none => rfl
      | some e =>
        exact absurd (KV.mem_keysOf_iff_lookup.mpr (by rw [hl]; rfl)) hm
  · rw [RedisStorage.setCommand, hfalsy]
    rfl
  · rfl

theorem from_dict_to_dict (t : GenerationTask) :
    GenerationTask.from_dict (GenerationTask.to_dict t) = some t := by
  cases t with
  | mk tid st et tc cc cd em ic err ca ua => cases st <;> rfl

/-- C6: serializing a `GenerationTask` with `to_dict` and parsing the
result back with `from_dict` reproduces every field of the task exactly —
id, status tag, type, counts, description, emoticons list, icon, error
message, and both timestamps (exactly, hence in particular to second
precision). -/
theorem generationTask_roundtrip (t : GenerationTask) :
    GenerationTask.from_dict (GenerationTask.to_dict t) = some t :=
  from_dict_to_dict t

namespace MemoryStorage

open KV

variable {K : Type} {V : Type} [DecidableEq K]

theorem get_eq_of_no_expiry {s : State K V} {k : K} {now : Nat}
    (hl : lookupKey s.expiry k = none) :
    get s k now = (lookupKey s.data k, s) := by
  simp only [get, hl]

/-- The state side-effect of a single `get` is invisible to every later
`get`: it only pops an entry that was already past its expiry. -/
theorem get_obs_preserved (s : State K V) (k : K) (now : Nat)
    (b : K) (now' : Nat) (hle : now ≤ now') :
    (get (get s k now).2 b now').1 = (get s b now').1 := by
  rcases hl : lookupKey s.expiry k with _ | e
  · rw [get_eq_of_no_expiry hl]
  · by_cases he : e < now
    · rw [get_eq_of_expired hl he]
      by_cases hbk : b = k
      · subst hbk
        rw [MemoryStorage.get_eq_of_no_expiry (lookupKey_removeKey_self _ _),
          get_eq_of_expired hl (lt_of_lt_of_le he hle)]
        simp [lookupKey_removeKey_self]
      · have hdata := @lookupKey_removeKey_of_ne K V _ s.data k b hbk
        have hexp := @lookupKey_removeKey_of_ne K Nat _ s.expiry k b hbk
        rcases hlb : lookupKey s.expiry b with _ | eb
        · rw [MemoryStorage.get_eq_of_no_expiry (hexp.trans hlb),
            get_eq_of_no_expiry hlb]
          simpa using hdata
        · by_cases heb : eb < now'
          · rw [MemoryStorage.get_eq_of_expired (hexp.trans hlb) heb,
              get_eq_of_expired hlb heb]
          · rw [MemoryStorage.get_eq_of_expiry_live (hexp.trans hlb) heb,
              get_eq_of_expiry_live hlb heb]
            simpa using hdata
    · rw [get_eq_of_expiry_live hl he]

end MemoryStorage

theorem getTask_saveTask (s : MemoryStorage.State String TaskDict)
    (t : GenerationTask) (now : Nat) :
    (TaskStorage.getTask (TaskStorage.saveTask s t now) t.task_id now).1 =
      some t := by
  simp only [TaskStorage.getTask, TaskStorage.saveTask]
  rw [MemoryStorage.set_truthy_eq
    (show 0 < TaskStorage.taskTtl by rw [TaskStorage.taskTtl]; norm_num)]
  have h1 : KV.lookupKey (KV.insertKey (MemoryStorage.enforceMaxItems
      (MemoryStorage.cleanupExpired s now)).expiry
      (TaskStorage.task_key t.task_id) (now + TaskStorage.taskTtl))
      (TaskStorage.task_key t.task_id) = some (now + TaskStorage.taskTtl) :=
    KV.lookupKey_insertKey_self _ _ _
  rw [MemoryStorage.get_eq_of_expiry_live h1 (by omega)]
  show (KV.lookupKey (KV.insertKey (MemoryStorage.enforceMaxItems
      (MemoryStorage.cleanupExpired s now)).data
      (TaskStorage.task_key t.task_id) t.to_dict)
      (TaskStorage.task_key t.task_id)).bind GenerationTask.from_dict = some t
  rw [KV.lookupKey_insertKey_self]
  simp [from_dict_to_dict]

/-- C7: `set_error` forces `status = Failed` and records the error message
from any prior state — including the nominally terminal states `Completed`
and `Failed` — because lines 167-174 of `task_storage.py` overwrite status
unconditionally whenever the task exists. -/
theorem taskStorage_set_error_forces_failed
    (s : MemoryStorage.State String TaskDict) (id msg : String) (now : Nat)
    (task : GenerationTask)
    (h : (TaskStorage.getTask s id now).1 = some task)
    (htid : task.task_id = id) :
    (TaskStorage.getTask (TaskStorage.set_error s id msg now) id now).1 =
      some { task with status := TaskStatus.failed,
                       error_message := some msg, updated_at := now } := by
  simp only [TaskStorage.set_error, h]
  nth_rewrite 2 [← htid]
  exact getTask_saveTask (TaskStorage.getTask s id now).2
    { task with status := TaskStatus.failed, error_message := some msg,
                updated_at := now } now

/-- Witness for C7: a task saved in the terminal state `Completed` is
forced to `Failed` with the message recorded. -/
theorem taskStorage_set_error_forces_failed_witness :
    (TaskStorage.getTask (TaskStorage.saveTask
        (MemoryStorage.emptyState String TaskDict)
        ⟨"id0", TaskStatus.completed, "static", 32, 0, "", [], none, none, 0, 0⟩
        0) "id0" 7).1 =
      some ⟨"id0", TaskStatus.completed, "static", 32, 0, "", [], none, none,
        0, 0⟩ ∧
    (⟨"id0", TaskStatus.completed, "static", 32, 0, "", [], none, none, 0, 0⟩ :
      GenerationTask).task_id = "id0" ∧
    (TaskStorage.getTask (TaskStorage.set_error (TaskStorage.saveTask
        (MemoryStorage.emptyState String TaskDict)
        ⟨"id0", TaskStatus.completed, "static", 32, 0, "", [], none, none, 0, 0⟩
        0) "id0" "quota exceeded" 7) "id0" 7).1 =
      some { (⟨"id0", TaskStatus.completed, "static", 32, 0, "", [], none, none,
          0, 0⟩ : GenerationTask) with
        status := TaskStatus.failed, error_message := some "quota exceeded",
        updated_at := 7 } :=
  ⟨by decide, rfl,
   taskStorage_set_error_forces_failed _ "id0" "quota exceeded" 7 _ (by decide)
     rfl⟩

/-- C8: `add_emoticon` appends the descriptor to the end of the emoticons
list and refreshes `updated_at`, leaving `completed_count` and every other
field unchanged; in particular, 5 `add_emoticon` calls on a fresh task with
no `update_task_progress` leave `completed_count = 0` while the emoticons
list has length 5. -/
theorem taskStorage_add_emoticon_decoupled
    (s : MemoryStorage.State String TaskDict) (id : String) (e : Emo)
    (now : Nat) (task : GenerationTask)
    (h : (TaskStorage.getTask s id now).1 = some task)
    (htid : task.task_id = id) :
    (TaskStorage.getTask (TaskStorage.add_emoticon s id e now) id now).1 =
      some { task with emoticons := task.emoticons ++ [e],
                       updated_at := now } ∧
    (TaskStorage.getTask
        ((fun st => TaskStorage.add_emoticon st "t1" [] 0)^[5]
          (TaskStorage.create_task (MemoryStorage.emptyState String TaskDict)
            "t1" "static" 32 0).2) "t1" 0).1 =
      some ⟨"t1", TaskStatus.pending, "static", 32, 0, "",
        [[], [], [], [], []], none, none, 0, 0⟩ := by
  constructor
  · simp only [TaskStorage.add_emoticon, h]
    nth_rewrite 2 [← htid]
    exact getTask_saveTask (TaskStorage.getTask s id now).2
      { task with emoticons := task.emoticons ++ [e], updated_at := now } now
  · decide

/-- Witness for C8 at a concrete fresh task. -/
theorem taskStorage_add_emoticon_decoupled_witness :
    (TaskStorage.getTask (TaskStorage.saveTask
        (MemoryStorage.emptyState String TaskDict)
        ⟨"t1", TaskStatus.pending, "static", 32, 0, "", [], none, none, 0, 0⟩
        0) "t1" 0).1 =
      some ⟨"t1", TaskStatus.pending, "static", 32, 0, "", [], none, none,
        0, 0⟩ ∧
    (⟨"t1", TaskStatus.pending, "static", 32, 0, "", [], none, none, 0, 0⟩ :
      GenerationTask).task_id = "t1" ∧
    ((TaskStorage.getTask (TaskStorage.add_emoticon (TaskStorage.saveTask
        (MemoryStorage.emptyState String TaskDict)
        ⟨"t1", TaskStatus.pending, "static", 32, 0, "", [], none, none, 0, 0⟩
        0) "t1" [("url", "u")] 0) "t1" 0).1 =
      some { (⟨"t1", TaskStatus.pending, "static", 32, 0, "", [], none, none,
          0, 0⟩ : GenerationTask) with
        emoticons := ([] : List Emo) ++ [[("url", "u")]], updated_at := 0 } ∧
    (TaskStorage.getTask
        ((fun st => TaskStorage.add_emoticon st "t1" [] 0)^[5]
          (TaskStorage.create_task (MemoryStorage.emptyState String TaskDict)
            "t1" "static" 32 0).2) "t1" 0).1 =
      some ⟨"t1", TaskStatus.pending, "static", 32, 0, "",
        [[], [], [], [], []], none, none, 0, 0⟩) :=
  ⟨by decide, rfl,
   taskStorage_add_emoticon_decoupled _ "t1" [("url", "u")] 0 _ (by decide) rfl⟩

/-- C9: every mutating registry operation on an id for which nothing is
stored (never created, expired, or evicted) is a silent no-op: all six
mutators are total functions (nothing to raise), they all return exactly
the state left by the embedded lookup, that state is observationally
identical to the original at every present or later instant (the lookup at
most pops an already-expired entry), and still no task exists under the id
afterwards. -/
theorem taskStorage_absent_id_silent_noop
    (s : MemoryStorage.State String TaskDict) (id : String) (now : Nat)
    (st : TaskStatus) (cc : Int) (desc : String) (e : Emo) (ic : Emo)
    (msg : String)
    (h : (MemoryStorage.get s (TaskStorage.task_key id) now).1 = none) :
    TaskStorage.update_task_status s id st now =
      (MemoryStorage.get s (TaskStorage.task_key id) now).2 ∧
    TaskStorage.update_task_progress s id cc desc now =
      (MemoryStorage.get s (TaskStorage.task_key id) now).2 ∧
    TaskStorage.add_emoticon s id e now =
      (MemoryStorage.get s (TaskStorage.task_key id) now).2 ∧
    TaskStorage.set_icon s id ic now =
      (MemoryStorage.get s (TaskStorage.task_key id) now).2 ∧
    TaskStorage.set_error s id msg now =
      (MemoryStorage.get s (TaskStorage.task_key id) now).2 ∧
    TaskStorage.complete_task s id now =
      (MemoryStorage.get s (TaskStorage.task_key id) now).2 ∧
    (∀ k now', now ≤ now' →
      (MemoryStorage.get
        (MemoryStorage.get s (TaskStorage.task_key id) now).2 k now').1 =
      (MemoryStorage.get s k now').1) ∧
    (TaskStorage.getTask
        (MemoryStorage.get s (TaskStorage.task_key id) now).2 id now).1 =
      none := by
  have hb : (TaskStorage.getTask s id now).1 = none := by
    simp [TaskStorage.getTask, h]
  refine ⟨?_, ?_, ?_, ?_, ?_, ?_, ?_, ?_⟩
  · simp only [TaskStorage.update_task_status, hb]
    rfl
  · simp only [TaskStorage.update_task_progress, hb]
    rfl
  · simp only [TaskStorage.add_emoticon, hb]
    rfl
  · simp only [TaskStorage.set_icon, hb]
    rfl
  · simp only [TaskStorage.set_error, hb]
    rfl
  · simp only [TaskStorage.complete_task, hb]
    rfl
  · intro k now' hle
    exact MemoryStorage.get_obs_preserved s (TaskStorage.task_key id) now k
      now' hle
  · simp only [TaskStorage.getTask]
    rw [MemoryStorage.get_obs_preserved s (TaskStorage.task_key id) now
      (TaskStorage.task_key id) now le_rfl, h]
    rfl

/-- Witness for C9: the empty store and an id that was never created. -/
theorem taskStorage_absent_id_silent_noop_witness :
    (MemoryStorage.get (MemoryStorage.emptyState String TaskDict)
        (TaskStorage.task_key "nope") 0).1 = none ∧
    (TaskStorage.update_task_status (MemoryStorage.emptyState String TaskDict)
        "nope" TaskStatus.running 0 =
      (MemoryStorage.get (MemoryStorage.emptyState String TaskDict)
        (TaskStorage.task_key "nope") 0).2 ∧
    TaskStorage.update_task_progress (MemoryStorage.emptyState String TaskDict)
        "nope" 3 "d" 0 =
      (MemoryStorage.get (MemoryStorage.emptyState String TaskDict)
        (TaskStorage.task_key "nope") 0).2 ∧
    TaskStorage.add_emoticon (MemoryStorage.emptyState String TaskDict)
        "nope" [] 0 =
      (MemoryStorage.get (MemoryStorage.emptyState String TaskDict)
        (TaskStorage.task_key "nope") 0).2 ∧
    TaskStorage.set_icon (MemoryStorage.emptyState String TaskDict)
        "nope" [] 0 =
      (MemoryStorage.get (MemoryStorage.emptyState String TaskDict)
        (TaskStorage.task_key "nope") 0).2 ∧
    TaskStorage.set_error (MemoryStorage.emptyState String TaskDict)
        "nope" "m" 0 =
      (MemoryStorage.get (MemoryStorage.emptyState String TaskDict)
        (TaskStorage.task_key "nope") 0).2 ∧
    TaskStorage.complete_task (MemoryStorage.emptyState String TaskDict)
        "nope" 0 =
      (MemoryStorage.get (MemoryStorage.emptyState String TaskDict)
        (TaskStorage.task_key "nope") 0).2 ∧
    (∀ k now', 0 ≤ now' →
      (MemoryStorage.get
        (MemoryStorage.get (MemoryStorage.emptyState String TaskDict)
          (TaskStorage.task_key "nope") 0).2 k now').1 =
      (MemoryStorage.get (MemoryStorage.emptyState String TaskDict) k now').1) ∧
    (TaskStorage.getTask
        (MemoryStorage.get (MemoryStorage.emptyState String TaskDict)
          (TaskStorage.task_key "nope") 0).2 "nope" 0).1 = none) :=
  ⟨rfl,
   taskStorage_absent_id_silent_noop (MemoryStorage.emptyState String TaskDict)
     "nope" 0 TaskStatus.running 3 "d" [] [] "m" rfl⟩
